import Mathlib

/-!
# Verification of the WhatsApp appointment-reminder bot (`src/index.js`)

Shallow embedding of the appointment scheduling and conversational
rescheduling engine.  Times are modelled as natural numbers counting
minutes of local wall-clock time since a fixed local epoch midnight
(the epoch day is a Thursday, matching the Unix epoch, so the weekday
of day index `d` is `(d + 4) % 7` with `0 = Sunday`).  A calendar day
is `t / 1440`, the time of day is `t % 1440`.

Each `dayjs` timestamp in the source carries minute granularity (slot
generation and Excel import both produce whole minutes), so `Nat`
minutes is an exact model.
-/

set_option maxRecDepth 4096

/-- An appointment record `{name, phone, appointmentTime}` (index.js uses
`appointmentTime`; here the field is `time`, in local minutes). -/
structure Appt where
  name : String
  phone : String
  time : Nat
deriving DecidableEq, Repr

/-- The `stage` field of a `userReschedulingState` entry. -/
inductive Stage where
  | confirmingCancellation
  | selectingDate
  | selectingTime
deriving DecidableEq, Repr

/-- One entry of `userReschedulingState` (index.js lines 247-251, 656-659):
`{currentAppointment, availableDates, stage, selectedDate, availableTimeSlots}`.
Dates are local day indices, slots are minute timestamps. -/
structure ConvState where
  currentAppointment : Appt
  availableDates : List Nat := []
  stage : Stage
  selectedDate : Nat := 0
  availableTimeSlots : List Nat := []
deriving DecidableEq, Repr

/-- The mutable globals of index.js that the claims concern:
`appointmentData` and `userReschedulingState` (an object keyed by phone,
modelled as an association list). -/
structure SysState where
  appointmentData : List Appt
  userReschedulingState : List (String × ConvState)
deriving DecidableEq, Repr

/-- Outbound replies, abstracted to which template the code sends. -/
inductive Reply where
  | noAppointmentFound
  | noAvailableDates
  | rescheduleIntro
  | genericApology
  | invalidDateSelection
  | noTimeSlots
  | timeSlotList
  | timeFormatNotUnderstood
  | noMatchingSlot
  | rescheduleConfirmation
  | cancellationFarewell
  | appointmentNotFoundInSystem
  | askRepeatChoice
  | retentionMessage
deriving DecidableEq, Repr

/-- `userReschedulingState[phone]` lookup. -/
def lookupConv (m : List (String × ConvState)) (p : String) : Option ConvState :=
  (m.find? (fun e => e.1 == p)).map (fun e => e.2)

/-- `delete userReschedulingState[phone]`. -/
def eraseConv (m : List (String × ConvState)) (p : String) : List (String × ConvState) :=
  m.filter (fun e => e.1 != p)

/-- `userReschedulingState[phone] = st` (assignment replaces any previous entry). -/
def setConv (m : List (String × ConvState)) (p : String) (st : ConvState) :
    List (String × ConvState) :=
  (p, st) :: eraseConv m p

/-- Weekday of local day index `d`; day 0 is a Thursday (`4`), `0 = Sunday`. -/
def dayOfWeek (d : Nat) : Nat := (d + 4) % 7

/-- index.js lines 39-48: Sunday closed (`open: null`), Monday-Saturday
10:00-21:00.  `none` models a falsy `open`; times are minutes of day. -/
def BUSINESS_HOURS (w : Nat) : Option (Nat × Nat) :=
  if w % 7 = 0 then none else some (600, 1260)

/-- index.js line 51: 60-minute slots. -/
def TIME_SLOT_DURATION : Nat := 60

/-- `getAvailableDates(numDays)` (index.js lines 733-749): walk days
`today+1 .. today+numDays`, keep those whose weekday has business hours. -/
def getAvailableDates (today : Nat) (numDays : Nat) : List Nat :=
  ((List.range numDays).map (fun i => today + i + 1)).filter
    (fun d => (BUSINESS_HOURS (dayOfWeek d)).isSome)

/-- Absolute difference of two timestamps, in minutes. -/
def absDiff (a b : Nat) : Nat := max a b - min a b

/-- The loop body condition of `isTimeSlotAvailable` (index.js lines 795-798):
same local calendar day and strictly less than 1 hour apart
(`Math.abs(diff(.., 'hour', true)) < 1` on whole-minute timestamps is
exactly `absDiff < 60`). -/
def conflictsWith (proposedTime : Nat) (a : Appt) : Bool :=
  proposedTime / 1440 == a.time / 1440 && absDiff proposedTime a.time < 60

/-- `isTimeSlotAvailable(proposedTime, userPhone)` (index.js lines 784-804):
false iff some appointment of a *different* phone conflicts. -/
def isTimeSlotAvailable (proposedTime : Nat) (userPhone : String) (appts : List Appt) : Bool :=
  !(appts.any (fun a => a.phone != userPhone && conflictsWith proposedTime a))

/-- The `while (currentSlot.isBefore(endTime))` generation loop of
`getAvailableTimeSlots` (index.js lines 770-778), before the availability
filter.  Fuelled structural recursion: each iteration advances by 60
minutes, so `close - cur` iterations always suffice. -/
def slotTimesFuel : Nat → Nat → Nat → List Nat
  | 0, _, _ => []
  | fuel + 1, cur, close =>
    if cur < close then cur :: slotTimesFuel fuel (cur + TIME_SLOT_DURATION) close else []

/-- All generated slot start times from `cur` (inclusive) to `close`
(exclusive), stepping by the slot duration. -/
def slotTimes (cur close : Nat) : List Nat := slotTimesFuel (close - cur) cur close

/-- `getAvailableTimeSlots(dateStr, userPhone)` (index.js lines 752-781):
empty on a closed weekday, otherwise the generated slots filtered by
`isTimeSlotAvailable`. -/
def getAvailableTimeSlots (d : Nat) (userPhone : String) (appts : List Appt) : List Nat :=
  match BUSINESS_HOURS (dayOfWeek d) with
  | none => []
  | some (o, c) =>
    (slotTimes (d * 1440 + o) (d * 1440 + c)).filter
      (fun t => isTimeSlotAvailable t userPhone appts)

/-- `apptTime.startOf('day').diff(now.startOf('day'), 'day')`
(index.js line 1341): signed difference of local calendar days. -/
def daysUntilAppointment (now apptTime : Nat) : Int :=
  ((apptTime / 1440 : Nat) : Int) - ((now / 1440 : Nat) : Int)

/-- The countdown-reminder trigger of the reminder tick (index.js line 1344):
`now.format("HH:mm") === "11:30" && daysUntilAppointment > 0 &&
daysUntilAppointment <= 7`. -/
def countdownReminderFires (now apptTime : Nat) : Bool :=
  (now % 1440 == 690) && decide (0 < daysUntilAppointment now apptTime)
    && decide (daysUntilAppointment now apptTime ≤ 7)

/-! ## Appointment Store merge (the `/upload` handler, index.js lines 1024-1082) -/

/-- Phase-1 keep decision (index.js lines 1030-1058): an in-memory
appointment is pushed to `mergedAppointments` unless the upload contains
the same phone with the *same* time (`existingTime.isSame(newTime)`). -/
def keepExisting (newAppointments : List Appt) (existingAppt : Appt) : Bool :=
  match newAppointments.find? (fun n => n.phone == existingAppt.phone) with
  | some matchingNewAppt => existingAppt.time != matchingNewAppt.time
  | none => true

/-- Phase 1 of the merge: the preserved in-memory appointments, in order. -/
def phase1Kept (appointmentData newAppointments : List Appt) : List Appt :=
  appointmentData.filter (keepExisting newAppointments)

/-- Phase 2 of the merge (index.js lines 1066-1076): walk the uploaded
batch and add every appointment whose phone is not yet in
`processedPhones`, adding its phone as it goes. -/
def phase2 (newAppointments : List Appt) (processedPhones : List String) : List Appt :=
  match newAppointments with
  | [] => []
  | n :: rest =>
    if processedPhones.contains n.phone then phase2 rest processedPhones
    else n :: phase2 rest (n.phone :: processedPhones)

/-- The complete `SMART MERGE` of `/upload`: preserved existing
appointments followed by the genuinely new uploads.  After phase 1,
`processedPhones` holds exactly the phones of the kept existing records. -/
def mergeAppointments (appointmentData newAppointments : List Appt) : List Appt :=
  phase1Kept appointmentData newAppointments ++
    phase2 newAppointments ((phase1Kept appointmentData newAppointments).map (fun a => a.phone))

/-- The `/upload` endpoint's effect on the globals: `appointmentData`
becomes the merged list; `userReschedulingState` is not touched. -/
def uploadMerge (sys : SysState) (newAppointments : List Appt) : SysState :=
  { appointmentData := mergeAppointments sys.appointmentData newAppointments,
    userReschedulingState := sys.userReschedulingState }

/-- The `/clear-appointments` endpoint (index.js lines 1227-1232):
`appointmentData = []`; `userReschedulingState` is not touched. -/
def clearAppointments (sys : SysState) : SysState :=
  { appointmentData := [], userReschedulingState := sys.userReschedulingState }

/-! ## Time Expression Parser (inside `handleTimeSelection`, index.js lines 332-542)

The input has already been lowercased by the message router; the handler
trims, lowercases again and collapses whitespace runs to single spaces
(`trim().toLowerCase().replace(/\s+/g, ' ')`), then tries an ordered
family of regular expressions.  Each `\d{1,2}` is greedy with
backtracking: try two digits first, then one. -/

/-- `String.prototype.trim()` over the character list.  (Lean's own
`String.trim` is not used because its byte-position arithmetic does not
reduce inside the kernel.) -/
def jsTrimChars (l : List Char) : List Char :=
  ((l.dropWhile Char.isWhitespace).reverse.dropWhile Char.isWhitespace).reverse

/-- `String.prototype.toLowerCase()` over the character list. -/
def jsToLowerChars (l : List Char) : List Char := l.map Char.toLower

/-- Numeric value of a decimal digit character. -/
def digitVal (c : Char) : Nat := c.toNat - 48

/-- The candidate splits of a greedy `^(\d{1,2})` match: two digits first
(greedy), then one digit (backtrack). -/
def digitSplits (cs : List Char) : List (Nat × List Char) :=
  match cs with
  | c1 :: c2 :: rest =>
    if c1.isDigit && c2.isDigit then
      [(digitVal c1 * 10 + digitVal c2, rest), (digitVal c1, c2 :: rest)]
    else if c1.isDigit then [(digitVal c1, c2 :: rest)]
    else []
  | [c1] => if c1.isDigit then [(digitVal c1, [])] else []
  | [] => []

/-- `\s*` -/
def dropSpaces (cs : List Char) : List Char := cs.dropWhile (fun c => c.isWhitespace)

/-- `\s*(?:pm|am)$` on lowercased input. -/
def meridiemEnd (cs : List Char) : Bool :=
  let r := dropSpaces cs
  r == ['p', 'm'] || r == ['a', 'm']

/-- `^(\d{1,2})\s*(?:pm|am)$` -/
def matchP1 (cs : List Char) : Option Nat :=
  (digitSplits cs).findSome? (fun s => if meridiemEnd s.2 then some s.1 else none)

/-- `^(\d{1,2}):(\d{2})\s*(?:pm|am)$` -/
def matchP2 (cs : List Char) : Option (Nat × Nat) :=
  (digitSplits cs).findSome? (fun s =>
    match s.2 with
    | ':' :: m1 :: m2 :: r =>
      if m1.isDigit && m2.isDigit && meridiemEnd r then
        some (s.1, digitVal m1 * 10 + digitVal m2)
      else none
    | _ => none)

/-- `^(\d{1,2}):\s*(?:pm|am)$` -/
def matchP3 (cs : List Char) : Option Nat :=
  (digitSplits cs).findSome? (fun s =>
    match s.2 with
    | ':' :: r => if meridiemEnd r then some s.1 else none
    | _ => none)

/-- `^(\d{1,2}):?(\d{2})?\s*(?:pm|am)$`.  The optional `:?` and `(\d{2})?`
are greedy; skipping them after a successful consume can never rescue a
failed match (the remainder would have to start the meridiem with a colon
or a digit), so only the digit-count backtracking of group 1 matters. -/
def matchP5 (cs : List Char) : Option (Nat × Option Nat) :=
  (digitSplits cs).findSome? (fun s =>
    let afterColon := match s.2 with
      | ':' :: r => r
      | r => r
    match afterColon with
    | m1 :: m2 :: r =>
      if m1.isDigit && m2.isDigit then
        if meridiemEnd r then some (s.1, some (digitVal m1 * 10 + digitVal m2))
        else if meridiemEnd (m1 :: m2 :: r) then some (s.1, none)
        else none
      else if meridiemEnd (m1 :: m2 :: r) then some (s.1, none)
      else none
    | r => if meridiemEnd r then some (s.1, none) else none)

/-- `^(\d{1,2})$` -/
def matchP6 (cs : List Char) : Option Nat :=
  (digitSplits cs).findSome? (fun s => if s.2.isEmpty then some s.1 else none)

/-- `^(\d{1,2}):$` -/
def matchP7 (cs : List Char) : Option Nat :=
  (digitSplits cs).findSome? (fun s => if s.2 == [':'] then some s.1 else none)

/-- `^(\d{1,2}):(\d{2})$` -/
def matchP8 (cs : List Char) : Option (Nat × Nat) :=
  (digitSplits cs).findSome? (fun s =>
    match s.2 with
    | ':' :: m1 :: m2 :: r =>
      if m1.isDigit && m2.isDigit && r.isEmpty then
        some (s.1, digitVal m1 * 10 + digitVal m2)
      else none
    | _ => none)

/-- Alternative pattern `^(\d{1,2})[^\d]*$` (index.js line 408). -/
def matchAlt2 (cs : List Char) : Option Nat :=
  (digitSplits cs).findSome? (fun s =>
    if s.2.all (fun c => !c.isDigit) then some s.1 else none)

/-- The ordered cascade of patterns (index.js lines 341-427).  Pattern 4
duplicates pattern 1 and the first alternative pattern duplicates
pattern 8, so both are omitted.  Returns the extracted hour and, when the
matching pattern captured one, the two-digit minute group. -/
def runTimePatterns (it : List Char) : Option (Nat × Option Nat) :=
  match matchP1 it with
  | some h => some (h, none)
  | none =>
  match matchP2 it with
  | some hm => some (hm.1, some hm.2)
  | none =>
  match matchP3 it with
  | some h => some (h, none)
  | none =>
  match matchP5 it with
  | some hm => some hm
  | none =>
  match matchP6 it with
  | some h => some (h, none)
  | none =>
  match matchP7 it with
  | some h => some (h, none)
  | none =>
  match matchP8 it with
  | some hm => some (hm.1, some hm.2)
  | none =>
  match matchAlt2 it with
  | some h => some (h, none)
  | none => none

/-- `replace(/\s+/g, ' ')`: collapse each whitespace run to one space. -/
def collapseWsAux : Bool → List Char → List Char
  | _, [] => []
  | prevWs, c :: rest =>
    if c.isWhitespace then
      if prevWs then collapseWsAux true rest
      else ' ' :: collapseWsAux true rest
    else c :: collapseWsAux false rest

/-- Whitespace collapsing starting outside a run. -/
def collapseWs (l : List Char) : List Char := collapseWsAux false l

/-- `sub` occurs as a contiguous substring (`String.prototype.includes`). -/
def hasInfixList (sub : List Char) : List Char → Bool
  | [] => sub.isEmpty
  | c :: rest => sub.isPrefixOf (c :: rest) || hasInfixList sub rest

/-- `s.includes(pat)` for our strings. -/
def hasInfixStr (s pat : String) : Bool := hasInfixList pat.data s.data

/-- The outcome of the parsing phase of `handleTimeSelection`
(index.js lines 336-427): `hour`, `minute` (0 when no minute group
matched), `period` (`some true` = the input contains `pm`, `some false` =
it contains `am`), and the `is24HourFormat` flag (no meridiem and
hour > 12). -/
structure ParsedTime where
  hour : Nat
  minute : Nat
  period : Option Bool
  is24 : Bool
deriving DecidableEq, Repr

/-- The full parsing phase: normalize, run the pattern cascade, read the
meridiem off the whole input with `includes`, set `is24HourFormat`. -/
def parseTimeInput (messageContent : String) : Option ParsedTime :=
  let inputTime := collapseWs (jsToLowerChars (jsTrimChars messageContent.data))
  (runTimePatterns inputTime).map (fun hm =>
    let period : Option Bool :=
      if hasInfixList ['p', 'm'] inputTime then some true
      else if hasInfixList ['a', 'm'] inputTime then some false
      else none
    { hour := hm.1, minute := hm.2.getD 0, period := period,
      is24 := period.isNone && decide (12 < hm.1) })

/-- Local hour of a slot timestamp (`slotTime.hour()`). -/
def slotHour (t : Nat) : Nat := t % 1440 / 60

/-- Local minute of a slot timestamp (`slotTime.minute()`). -/
def slotMinute (t : Nat) : Nat := t % 60

/-- The exact-match step of `handleTimeSelection` (index.js lines 439-500).
For a bare hour with no meridiem, the code enumerates the plausible
24-hour candidates (`[h, h+12]` for 1-11, `[12, 0]` for 12, `[h]` for
h > 12) in an *outer* loop and scans the offered slots in an *inner*
loop. -/
def selectExact (p : ParsedTime) (slots : List Nat) : Option Nat :=
  if p.is24 then
    slots.find? (fun t => slotHour t == p.hour && slotMinute t == p.minute)
  else match p.period with
  | some true =>
    let hour24 := if p.hour < 12 then p.hour + 12 else p.hour
    slots.find? (fun t => slotHour t == hour24 && slotMinute t == p.minute)
  | some false =>
    let hour24 := if p.hour == 12 then 0 else p.hour
    slots.find? (fun t => slotHour t == hour24 && slotMinute t == p.minute)
  | none =>
    let candidateHours :=
      if 1 ≤ p.hour && p.hour ≤ 11 then [p.hour, p.hour + 12]
      else if p.hour == 12 then [12, 0]
      else if 12 < p.hour then [p.hour] else []
    candidateHours.findSome? (fun ch =>
      slots.find? (fun t => slotHour t == ch && slotMinute t == p.minute))

/-- The per-slot `possibleHours` of the fuzzy fallback
(index.js lines 509-528). -/
def fuzzyPossibleHours (p : ParsedTime) : List Nat :=
  if p.is24 || decide (12 < p.hour) then [p.hour]
  else if p.period == some true && decide (p.hour < 12) then [p.hour + 12]
  else if p.period == some false && p.hour == 12 then [0]
  else if p.period == some false then [p.hour]
  else if p.period == some true && p.hour == 12 then [12]
  else [p.hour] ++ (if p.hour ≤ 11 then [p.hour + 12] else [])
    ++ (if p.hour == 12 then [0] else [])

/-- The fuzzy fallback (index.js lines 502-542): first offered slot, in
list order, within 15 minutes of a synthesized target
`slotTime.hour(h).minute(m)` for some possible hour `h`. -/
def fuzzySelect (p : ParsedTime) (slots : List Nat) : Option Nat :=
  slots.find? (fun slot =>
    (fuzzyPossibleHours p).any (fun h =>
      absDiff slot ((slot / 1440) * 1440 + h * 60 + p.minute) ≤ 15))

/-! ## JavaScript `parseInt` (used by `handleDateSelection`, index.js line 279)

`parseInt(str)` with no radix: optional sign, then either a `0x`/`0X`
hexadecimal literal or the longest leading run of decimal digits; `NaN`
(here `none`) when that run is empty. -/

/-- Value of the longest leading decimal-digit run. -/
def decValue (ds : List Char) : Nat :=
  ds.foldl (fun acc c => acc * 10 + digitVal c) 0

/-- Hexadecimal digit test. -/
def isHexDigitChar (c : Char) : Bool :=
  c.isDigit || ('a' ≤ c && c ≤ 'f') || ('A' ≤ c && c ≤ 'F')

/-- Value of a hexadecimal digit run. -/
def hexValue (ds : List Char) : Nat :=
  ds.foldl (fun acc c =>
    acc * 16 +
      (if c.isDigit then c.toNat - 48
       else if 'a' ≤ c && c ≤ 'f' then c.toNat - 87
       else c.toNat - 55)) 0

/-- `parseInt` after the optional sign. -/
def parseIntNoSign : List Char → Option Nat
  | '0' :: x :: rest =>
    if x == 'x' || x == 'X' then
      let hs := rest.takeWhile isHexDigitChar
      if hs.isEmpty then none else some (hexValue hs)
    else
      let ds := (('0' : Char) :: x :: rest).takeWhile Char.isDigit
      if ds.isEmpty then none else some (decValue ds)
  | cs =>
    let ds := cs.takeWhile Char.isDigit
    if ds.isEmpty then none else some (decValue ds)

/-- `parseInt(s.trim())` as called on index.js line 279 (`parseInt` skips
leading whitespace itself, so trimming inside the model is equivalent). -/
def parseIntJs (s : String) : Option Int :=
  match jsTrimChars s.data with
  | '+' :: rest => (parseIntNoSign rest).map (fun n => (n : Int))
  | '-' :: rest => (parseIntNoSign rest).map (fun n => -(n : Int))
  | cs => (parseIntNoSign cs).map (fun n => (n : Int))

/-! ## Conversation State Machine handlers

Each handler takes a `replyThrows` flag: `true` means the outbound
`message.reply` call inside the `try` block raises, exercising the
handler's `catch` clause (which replies with a generic apology).  The
faults of interest for the claims are chat-transport send failures, which
strike exactly at those reply calls. -/

/-- Replace the time of the first appointment with the given phone
(`appointmentData[appointmentIndex].appointmentTime = selectedTime`,
index.js lines 569-575; no-op when the phone is absent). -/
def updateFirstAppt : List Appt → String → Nat → List Appt
  | [], _, _ => []
  | a :: rest, p, t =>
    if a.phone == p then { a with time := t } :: rest
    else a :: updateFirstAppt rest p t

/-- Remove the first appointment with the given phone
(`appointmentData.splice(appointmentIndex, 1)`, index.js line 683). -/
def removeFirstAppt : List Appt → String → List Appt
  | [], _ => []
  | a :: rest, p => if a.phone == p then rest else a :: removeFirstAppt rest p

/-- `handleRescheduleRequest` (index.js lines 224-271).  Sets the
`selecting_date` state *before* sending the intro message; its `catch`
replies with an apology but does **not** delete the state entry. -/
def handleRescheduleRequest (today : Nat) (sys : SysState) (phone : String)
    (replyThrows : Bool) : SysState × List Reply :=
  match sys.appointmentData.find? (fun appt => appt.phone == phone) with
  | none => (sys, [if replyThrows then .genericApology else .noAppointmentFound])
  | some userAppointment =>
    let availableDates := getAvailableDates today 7
    if availableDates.isEmpty then
      (sys, [if replyThrows then .genericApology else .noAvailableDates])
    else
      ({ sys with
          userReschedulingState := setConv sys.userReschedulingState phone
            { currentAppointment := userAppointment, availableDates := availableDates,
              stage := .selectingDate } },
        [if replyThrows then .genericApology else .rescheduleIntro])

/-- `handleCancellationRequest` (index.js lines 601-668).  Sets the
`confirming_cancellation` state before replying; its `catch` replies with
an apology but does **not** delete the state entry.  (The optional
text-generation call has a template fallback and cannot abort the
handler.) -/
def handleCancellationRequest (sys : SysState) (phone : String)
    (replyThrows : Bool) : SysState × List Reply :=
  match sys.appointmentData.find? (fun appt => appt.phone == phone) with
  | none => (sys, [if replyThrows then .genericApology else .noAppointmentFound])
  | some userAppointment =>
    ({ sys with
        userReschedulingState := setConv sys.userReschedulingState phone
          { currentAppointment := userAppointment, stage := .confirmingCancellation } },
      [if replyThrows then .genericApology else .retentionMessage])

/-- `handleDateSelection` (index.js lines 274-326).  Its `catch` replies
with an apology **and deletes the state entry**.  When no entry exists
the dereference `userState.availableDates` raises, landing in the same
`catch`. -/
def handleDateSelection (sys : SysState) (phone messageContent : String)
    (replyThrows : Bool) : SysState × List Reply :=
  match lookupConv sys.userReschedulingState phone with
  | none =>
    ({ sys with userReschedulingState := eraseConv sys.userReschedulingState phone },
      [.genericApology])
  | some userState =>
    match parseIntJs messageContent with
    | none =>
      if replyThrows then
        ({ sys with userReschedulingState := eraseConv sys.userReschedulingState phone },
          [.genericApology])
      else (sys, [.invalidDateSelection])
    | some v =>
      let idx : Int := v - 1
      if idx < 0 ∨ (userState.availableDates.length : Int) ≤ idx then
        if replyThrows then
          ({ sys with userReschedulingState := eraseConv sys.userReschedulingState phone },
            [.genericApology])
        else (sys, [.invalidDateSelection])
      else
        let selectedDate := userState.availableDates.getD idx.toNat 0
        let timeSlots := getAvailableTimeSlots selectedDate phone sys.appointmentData
        if replyThrows then
          ({ sys with userReschedulingState := eraseConv sys.userReschedulingState phone },
            [.genericApology])
        else if timeSlots.isEmpty then
          ({ sys with
              userReschedulingState := setConv sys.userReschedulingState phone
                { userState with selectedDate := selectedDate, stage := .selectingDate } },
            [.noTimeSlots])
        else
          ({ sys with
              userReschedulingState := setConv sys.userReschedulingState phone
                { userState with
                  selectedDate := selectedDate
                  stage := .selectingTime
                  availableTimeSlots := timeSlots } },
            [.timeSlotList])

/-- `handleTimeSelection` (index.js lines 332-598).  On a successful match
the appointment time is updated and the state entry deleted; the `catch`
replies with an apology **and deletes the state entry**. -/
def handleTimeSelection (sys : SysState) (phone messageContent : String)
    (replyThrows : Bool) : SysState × List Reply :=
  match lookupConv sys.userReschedulingState phone with
  | none =>
    ({ sys with userReschedulingState := eraseConv sys.userReschedulingState phone },
      [.genericApology])
  | some userState =>
    match parseTimeInput messageContent with
    | none =>
      if replyThrows then
        ({ sys with userReschedulingState := eraseConv sys.userReschedulingState phone },
          [.genericApology])
      else (sys, [.timeFormatNotUnderstood])
    | some p =>
      let selectedTime :=
        match selectExact p userState.availableTimeSlots with
        | some t => some t
        | none => fuzzySelect p userState.availableTimeSlots
      match selectedTime with
      | none =>
        if replyThrows then
          ({ sys with userReschedulingState := eraseConv sys.userReschedulingState phone },
            [.genericApology])
        else (sys, [.noMatchingSlot])
      | some t =>
        ({ appointmentData := updateFirstAppt sys.appointmentData phone t,
            userReschedulingState := eraseConv sys.userReschedulingState phone },
          [if replyThrows then .genericApology else .rescheduleConfirmation])

/-- `processCancellation` (index.js lines 676-730).  On success, removes
the appointment and deletes the state entry; when the appointment is
missing it replies without touching the state; its `catch` replies with
an apology **and deletes the state entry**.  A missing state entry makes
the first dereference raise, landing in the `catch`. -/
def processCancellation (sys : SysState) (phone : String)
    (replyThrows : Bool) : SysState × List Reply :=
  match lookupConv sys.userReschedulingState phone with
  | none =>
    ({ sys with userReschedulingState := eraseConv sys.userReschedulingState phone },
      [.genericApology])
  | some _ =>
    if (sys.appointmentData.find? (fun appt => appt.phone == phone)).isSome then
      ({ appointmentData := removeFirstAppt sys.appointmentData phone,
          userReschedulingState := eraseConv sys.userReschedulingState phone },
        [if replyThrows then .genericApology else .cancellationFarewell])
    else
      if replyThrows then
        ({ sys with userReschedulingState := eraseConv sys.userReschedulingState phone },
          [.genericApology])
      else (sys, [.appointmentNotFoundInSystem])

/-- The inbound-message handler (index.js lines 124-214): silently drop
events from phones with no appointment or carrying media, then route on
the conversation stage and the trigger keywords.  `body` is the raw
message text; the router lowercases it. -/
def messageStep (today : Nat) (sys : SysState) (phone body : String)
    (hasMedia : Bool) (replyThrows : Bool) : SysState × List Reply :=
  match sys.appointmentData.find? (fun appt => appt.phone == phone) with
  | none => (sys, [])
  | some _ =>
    if hasMedia then (sys, [])
    else
      let messageContent : String := ⟨jsToLowerChars body.data⟩
      match lookupConv sys.userReschedulingState phone with
      | some userState =>
        match userState.stage with
        | .confirmingCancellation =>
          if hasInfixStr messageContent "confirm cancel" ||
              hasInfixStr messageContent "confirm" ||
              messageContent == "cancel" || messageContent == "yes" then
            processCancellation sys phone replyThrows
          else if hasInfixStr messageContent "reschedule" then
            handleRescheduleRequest today sys phone replyThrows
          else (sys, [.askRepeatChoice])
        | .selectingDate => handleDateSelection sys phone messageContent replyThrows
        | .selectingTime => handleTimeSelection sys phone messageContent replyThrows
      | none =>
        if hasInfixStr messageContent "cancel" || hasInfixStr messageContent "cancellation" then
          handleCancellationRequest sys phone replyThrows
        else if hasInfixStr messageContent "reschedule" then
          handleRescheduleRequest today sys phone replyThrows
        else (sys, [])

/-- The spec's data-model invariant: a `userReschedulingState` entry
exists only for phones present in the Appointment Store. -/
def ConvInvariant (sys : SysState) : Prop :=
  ∀ e ∈ sys.userReschedulingState, ∃ a ∈ sys.appointmentData, a.phone = e.1

instance (sys : SysState) : Decidable (ConvInvariant sys) := by
  unfold ConvInvariant; infer_instance

/-! ## Concrete scenarios used to settle individual claims -/

/-- An appointment whose contact is offered the slot list `[18:00, 06:00]`. -/
def apptC1 : Appt := { name := "Ann", phone := "1", time := 840 }

/-- A state in stage `selecting_time` with offered slots 18:00 (`1080`)
and 06:00 (`360`) of day 0, in that order. -/
def sysC1 : SysState :=
  { appointmentData := [apptC1],
    userReschedulingState := [("1",
      { currentAppointment := apptC1, availableDates := [0], stage := .selectingTime,
        selectedDate := 0, availableTimeSlots := [1080, 360] })] }

/-- An appointment for the fault-handling scenario. -/
def apptC3 : Appt := { name := "Bob", phone := "2", time := 9000 }

/-- A system with an appointment for phone `"2"` and no dialogue in
progress. -/
def sysC3 : SysState := { appointmentData := [apptC3], userReschedulingState := [] }

/-- An appointment for the invariant scenario. -/
def apptC4 : Appt := { name := "Dee", phone := "4", time := 3000 }

/-- A system where phone `"4"` is mid-dialogue and has an appointment. -/
def sysC4 : SysState :=
  { appointmentData := [apptC4],
    userReschedulingState := [("4",
      { currentAppointment := apptC4, stage := .confirmingCancellation })] }

/-- An appointment for the routing scenario. -/
def apptC9 : Appt := { name := "Eve", phone := "5", time := 4000 }

/-- A system with a single appointment for phone `"5"`. -/
def sysC9 : SysState := { appointmentData := [apptC9], userReschedulingState := [] }

/-- An appointment for the date-selection scenario. -/
def apptC10 : Appt := { name := "Cal", phone := "3", time := 2000 }

/-- A state in stage `selecting_date` offering the two dates `[5, 6]`. -/
def stC10 : ConvState :=
  { currentAppointment := apptC10, availableDates := [5, 6], stage := .selectingDate }

/-- A system where phone `"3"` is in stage `selecting_date`. -/
def sysC10 : SysState :=
  { appointmentData := [apptC10], userReschedulingState := [("3", stC10)] }

/-! # Theorems

First, auxiliary lemmas about the association-list operations, the slot
generator, the merge, and `parseInt`; then one theorem per claim. -/

theorem mem_eraseConv {m : List (String × ConvState)} {p : String}
    {e : String × ConvState} (h : e ∈ eraseConv m p) : e ∈ m ∧ e.1 ≠ p := by
  unfold eraseConv at h
  refine ⟨List.mem_of_mem_filter h, ?_⟩
  have h2 := List.of_mem_filter h
  simpa using h2

theorem lookupConv_eraseConv_self (m : List (String × ConvState)) (p : String) :
    lookupConv (eraseConv m p) p = none := by
  unfold lookupConv
  have h : (eraseConv m p).find? (fun e => e.1 == p) = none := by
    rw [List.find?_eq_none]
    intro x hx
    simpa using (mem_eraseConv hx).2
  rw [h]
  rfl

theorem lookupConv_setConv_self (m : List (String × ConvState)) (p : String)
    (st : ConvState) : lookupConv (setConv m p st) p = some st := by
  unfold lookupConv setConv
  simp [List.find?]


theorem slotTimesFuel_mem {fuel cur close t : Nat}
    (h : t ∈ slotTimesFuel fuel cur close) : cur ≤ t ∧ t < close := by
  induction fuel generalizing cur with
  | zero => simp [slotTimesFuel] at h
  | succ n ih =>
    simp only [slotTimesFuel] at h
    split at h
    · rcases List.mem_cons.mp h with rfl | h2
      · exact ⟨le_refl _, by assumption⟩
      · have h3 := ih h2
        simp only [TIME_SLOT_DURATION] at h3
        exact ⟨by omega, h3.2⟩
    · simp at h

theorem slotTimesFuel_head (fuel cur close : Nat) :
    (slotTimesFuel fuel cur close).head? = none ∨
      (slotTimesFuel fuel cur close).head? = some cur := by
  cases fuel with
  | zero => exact Or.inl rfl
  | succ n =>
    simp only [slotTimesFuel]
    split
    · exact Or.inr rfl
    · exact Or.inl rfl

theorem slotTimesFuel_chain (fuel cur close : Nat) :
    List.Chain' (fun a b => b = a + TIME_SLOT_DURATION) (slotTimesFuel fuel cur close) := by
  induction fuel generalizing cur with
  | zero => simp [slotTimesFuel]
  | succ n ih =>
    simp only [slotTimesFuel]
    split
    · rw [List.chain'_cons']
      refine ⟨?_, ih _⟩
      intro y hy
      rcases slotTimesFuel_head n (cur + TIME_SLOT_DURATION) close with h | h <;>
        rw [h] at hy <;> simp_all
    · exact List.chain'_nil

theorem slotTimesFuel_sorted (fuel cur close : Nat) :
    List.Sorted (fun a b => a < b) (slotTimesFuel fuel cur close) := by
  induction fuel generalizing cur with
  | zero => simp [slotTimesFuel]
  | succ n ih =>
    simp only [slotTimesFuel]
    split
    · rw [List.sorted_cons]
      refine ⟨?_, ih _⟩
      intro b hb
      have h2 := slotTimesFuel_mem hb
      simp only [TIME_SLOT_DURATION] at h2
      omega
    · simp

theorem slotTimes_head {cur close : Nat} (h : cur < close) :
    (slotTimes cur close).head? = some cur := by
  unfold slotTimes
  obtain ⟨k, hk⟩ : ∃ k, close - cur = k + 1 := ⟨close - cur - 1, by omega⟩
  rw [hk]
  simp only [slotTimesFuel]
  rw [if_pos h]
  rfl

/-- Claim C5 helper: the exact content of `BUSINESS_HOURS` when open. -/
theorem BUSINESS_HOURS_some {w o c : Nat} (h : BUSINESS_HOURS w = some (o, c)) :
    o = 600 ∧ c = 1260 := by
  unfold BUSINESS_HOURS at h
  split at h
  · simp at h
  · have h2 : (600, 1260) = (o, c) := by simpa using h
    simp only [Prod.mk.injEq] at h2
    exact ⟨h2.1.symm, h2.2.symm⟩

/-- C5: a candidate slot is kept by `isTimeSlotAvailable` iff no
appointment of a phone different from the excluded phone lies on the same
local calendar date within strictly less than one slot duration (60
minutes); in particular the excluded phone's own appointment never causes
a conflict, and, the calendar comparison being on local dates, an
appointment at 23:30 does not conflict with a 00:30 slot of the next
local date. -/
theorem isTimeSlotAvailable_spec :
    (∀ (t : Nat) (phone : String) (appts : List Appt),
      isTimeSlotAvailable t phone appts = true ↔
        ∀ a ∈ appts, a.phone ≠ phone →
          ¬(t / 1440 = a.time / 1440 ∧ absDiff t a.time < 60)) ∧
    isTimeSlotAvailable 1470 "p1" [{ name := "b", phone := "p2", time := 1410 }] = true := by
  constructor
  · intro t phone appts
    unfold isTimeSlotAvailable conflictsWith
    simp only [Bool.not_eq_true', List.any_eq_false, Bool.and_eq_true, bne_iff_ne,
      beq_iff_eq, decide_eq_true_eq]
    constructor
    · intro h a ha hne hc
      exact h a ha ⟨hne, hc.1, hc.2⟩
    · intro h a ha hx
      exact h a ha hx.1 ⟨hx.2.1, hx.2.2⟩
  · decide

/-- C6: `getAvailableTimeSlots` returns `[]` on a closed weekday;
otherwise it is the availability filter of the generated slot sequence,
whose first slot is exactly the opening time, whose consecutive slots
differ by exactly the 60-minute slot duration, each slot lying strictly
before the closing time, in chronological order. -/
theorem getAvailableTimeSlots_generation :
    ∀ (d : Nat) (phone : String) (appts : List Appt),
      (BUSINESS_HOURS (dayOfWeek d) = none → getAvailableTimeSlots d phone appts = []) ∧
      (∀ o c, BUSINESS_HOURS (dayOfWeek d) = some (o, c) →
        getAvailableTimeSlots d phone appts =
          (slotTimes (d * 1440 + o) (d * 1440 + c)).filter
            (fun t => isTimeSlotAvailable t phone appts) ∧
        (slotTimes (d * 1440 + o) (d * 1440 + c)).head? = some (d * 1440 + o) ∧
        List.Chain' (fun a b => b = a + TIME_SLOT_DURATION)
          (slotTimes (d * 1440 + o) (d * 1440 + c)) ∧
        (∀ t ∈ slotTimes (d * 1440 + o) (d * 1440 + c), t < d * 1440 + c) ∧
        List.Sorted (fun a b => a < b) (slotTimes (d * 1440 + o) (d * 1440 + c))) := by
  intro d phone appts
  constructor
  · intro h
    unfold getAvailableTimeSlots
    rw [h]
  · intro o c h
    obtain ⟨rfl, rfl⟩ := BUSINESS_HOURS_some h
    refine ⟨?_, ?_, ?_, ?_, ?_⟩
    · unfold getAvailableTimeSlots
      rw [h]
    · exact slotTimes_head (by omega)
    · unfold slotTimes
      exact slotTimesFuel_chain _ _ _
    · intro t ht
      unfold slotTimes at ht
      exact (slotTimesFuel_mem ht).2
    · unfold slotTimes
      exact slotTimesFuel_sorted _ _ _

/-- C7: `getAvailableDates` walks the `n` days after `today` in
chronological order and keeps exactly the days whose weekday has business
hours, so it has at most `n` entries and contains a day iff it is in the
window and open; with Sunday closed, a horizon of 7 starting on the
Saturday day 2 yields exactly the six days `[4,5,6,7,8,9]`, excluding the
Sunday day 3. -/
theorem getAvailableDates_spec :
    (∀ today n, (getAvailableDates today n).length ≤ n) ∧
    (∀ today n d, d ∈ getAvailableDates today n ↔
      (today + 1 ≤ d ∧ d ≤ today + n ∧ (BUSINESS_HOURS (dayOfWeek d)).isSome = true)) ∧
    (∀ today n, List.Sorted (fun a b => a < b) (getAvailableDates today n)) ∧
    getAvailableDates 2 7 = [4, 5, 6, 7, 8, 9] := by
  refine ⟨?_, ?_, ?_, by decide⟩
  · intro today n
    unfold getAvailableDates
    calc (((List.range n).map (fun i => today + i + 1)).filter
            (fun d => (BUSINESS_HOURS (dayOfWeek d)).isSome)).length
        ≤ ((List.range n).map (fun i => today + i + 1)).length :=
          List.length_filter_le _ _
      _ = n := by simp
  · intro today n d
    unfold getAvailableDates
    simp only [List.mem_filter, List.mem_map, List.mem_range]
    constructor
    · rintro ⟨⟨i, hi, rfl⟩, hsome⟩
      exact ⟨by omega, by omega, hsome⟩
    · rintro ⟨h1, h2, hsome⟩
      exact ⟨⟨d - today - 1, by omega, by omega⟩, hsome⟩
  · intro today n
    unfold getAvailableDates
    apply List.Pairwise.filter
    exact (List.pairwise_lt_range n).map _ (fun a b hab => by omega)

/-- C8: the countdown reminder fires on a tick iff the wall-clock time of
day is exactly 11:30 and the appointment's local calendar date is between
1 and 7 days (inclusive) ahead of today's; a tick at 11:30 with an
appointment 3 days ahead fires it and the 11:31 tick does not. -/
theorem countdownReminder_spec :
    (∀ now apptTime, countdownReminderFires now apptTime = true ↔
      (now % 1440 = 690 ∧ 1 ≤ daysUntilAppointment now apptTime ∧
        daysUntilAppointment now apptTime ≤ 7)) ∧
    countdownReminderFires 690 (3 * 1440 + 600) = true ∧
    countdownReminderFires 691 (3 * 1440 + 600) = false := by
  refine ⟨?_, by decide, by decide⟩
  intro now apptTime
  unfold countdownReminderFires
  simp only [Bool.and_eq_true, decide_eq_true_eq, beq_iff_eq]
  constructor
  · rintro ⟨⟨h1, h2⟩, h3⟩
    exact ⟨h1, by omega, h3⟩
  · rintro ⟨h1, h2, h3⟩
    exact ⟨⟨h1, by omega⟩, h3⟩

/-- Witness for C6 at the open day 1 (a Friday): the generated sequence
begins exactly at the opening time 10:00. -/
theorem getAvailableTimeSlots_generation_witness :
    (slotTimes (1 * 1440 + 600) (1 * 1440 + 1260)).head? = some (1 * 1440 + 600) :=
  ((getAvailableTimeSlots_generation 1 "1" []).2 600 1260 rfl).2.1

theorem mem_phase2 : ∀ {nw : List Appt} {proc : List String} {a : Appt},
    a ∈ phase2 nw proc → a ∈ nw ∧ a.phone ∉ proc := by
  intro nw
  induction nw with
  | nil =>
    intro proc a h
    simp [phase2] at h
  | cons n rest ih =>
    intro proc a h
    simp only [phase2] at h
    split at h
    · have h2 := ih h
      exact ⟨List.mem_cons_of_mem _ h2.1, h2.2⟩
    · rename_i hc
      rcases List.mem_cons.mp h with rfl | h2
      · refine ⟨List.mem_cons_self _ _, ?_⟩
        simpa using hc
      · have h3 := ih h2
        exact ⟨List.mem_cons_of_mem _ h3.1,
          fun hmem => h3.2 (List.mem_cons_of_mem _ hmem)⟩

theorem phase2_covers : ∀ (nw : List Appt) (proc : List String) (p : String),
    (∃ n ∈ nw, n.phone = p) → p ∉ proc → ∃ b ∈ phase2 nw proc, b.phone = p := by
  intro nw
  induction nw with
  | nil =>
    intro proc p h hp
    simp at h
  | cons n rest ih =>
    intro proc p h hp
    obtain ⟨m, hm, hmp⟩ := h
    simp only [phase2]
    split
    · rename_i hc
      rcases List.mem_cons.mp hm with rfl | hm2
      · exact absurd (by simpa [hmp] using hc) hp
      · exact ih proc p ⟨m, hm2, hmp⟩ hp
    · rcases List.mem_cons.mp hm with rfl | hm2
      · exact ⟨m, List.mem_cons_self _ _, hmp⟩
      · by_cases hnp : n.phone = p
        · exact ⟨n, List.mem_cons_self _ _, hnp⟩
        · obtain ⟨b, hb, hbp⟩ := ih (n.phone :: proc) p ⟨m, hm2, hmp⟩ (by
            intro hmem
            rcases List.mem_cons.mp hmem with h1 | h2
            · exact hnp h1.symm
            · exact hp h2)
          exact ⟨b, List.mem_cons_of_mem _ hb, hbp⟩

theorem merge_phone_surj (existing newB : List Appt) (a : Appt) (ha : a ∈ existing) :
    ∃ b ∈ mergeAppointments existing newB, b.phone = a.phone := by
  unfold mergeAppointments
  by_cases hk : keepExisting newB a = true
  · exact ⟨a, List.mem_append_left _ (List.mem_filter.mpr ⟨ha, hk⟩), rfl⟩
  · unfold keepExisting at hk
    cases hfind : newB.find? (fun n => n.phone == a.phone) with
    | none =>
      rw [hfind] at hk
      simp at hk
    | some m =>
      have hm_mem := List.mem_of_find?_eq_some hfind
      have hm_phone : m.phone = a.phone := by
        have h2 := List.find?_some hfind
        simpa using h2
      by_cases hp : a.phone ∈ (phase1Kept existing newB).map (fun x => x.phone)
      · obtain ⟨b, hb, hbp⟩ := List.mem_map.mp hp
        exact ⟨b, List.mem_append_left _ hb, hbp⟩
      · obtain ⟨b, hb, hbp⟩ := phase2_covers newB _ a.phone ⟨m, hm_mem, hm_phone⟩ hp
        exact ⟨b, List.mem_append_right _ hb, hbp⟩

theorem mem_removeFirstAppt_of_ne {l : List Appt} {p : String} {a : Appt}
    (ha : a ∈ l) (hne : a.phone ≠ p) : a ∈ removeFirstAppt l p := by
  induction l with
  | nil => simp at ha
  | cons x rest ih =>
    simp only [removeFirstAppt]
    split
    · rename_i hx
      rcases List.mem_cons.mp ha with rfl | h2
      · exact absurd (by simpa using hx) hne
      · exact h2
    · rcases List.mem_cons.mp ha with rfl | h2
      · exact List.mem_cons_self _ _
      · exact List.mem_cons_of_mem _ (ih h2)

/-- C2: when a phone occurs both in memory and in an upload with a
different time, the merge keeps the in-memory (rescheduled) record and
the merged list contains no other record for that phone — so a
reschedule survives a re-import of the old time. -/
theorem uploadMerge_keeps_reschedule :
    ∀ (existing newB : List Appt) (e n : Appt) (p : String),
      (existing.map (fun a => a.phone)).Nodup →
      (newB.map (fun a => a.phone)).Nodup →
      e ∈ existing → e.phone = p → n ∈ newB → n.phone = p → e.time ≠ n.time →
      e ∈ mergeAppointments existing newB ∧
        ∀ a ∈ mergeAppointments existing newB, a.phone = p → a = e := by
  intro existing newB e n p hnodE hnodN he hep hn hnp htime
  have hkeep : keepExisting newB e = true := by
    unfold keepExisting
    cases hfind : newB.find? (fun x => x.phone == e.phone) with
    | none =>
      exfalso
      have hsome : (newB.find? (fun x => x.phone == e.phone)).isSome := by
        rw [List.find?_isSome]
        exact ⟨n, hn, by simp [hnp, hep]⟩
      rw [hfind] at hsome
      simp at hsome
    | some m =>
      have hm_phone : m.phone = e.phone := by
        have h2 := List.find?_some hfind
        simpa using h2
      have hm : m = n :=
        List.inj_on_of_nodup_map hnodN (List.mem_of_find?_eq_some hfind) hn
          (by rw [hm_phone, hep, hnp])
      rw [hm]
      simpa using htime
  have heK : e ∈ phase1Kept existing newB := List.mem_filter.mpr ⟨he, hkeep⟩
  constructor
  · unfold mergeAppointments
    exact List.mem_append_left _ heK
  · intro a ha hap
    unfold mergeAppointments at ha
    rcases List.mem_append.mp ha with h1 | h2
    · exact List.inj_on_of_nodup_map hnodE (List.mem_of_mem_filter h1) he
        (by rw [hap, hep])
    · exfalso
      have h3 := mem_phase2 h2
      apply h3.2
      rw [hap, ← hep]
      exact List.mem_map_of_mem _ heK

/-- Witness for C2, the spec's round-trip scenario: a stored reschedule
(time 1500) survives re-import of the old time (1400). -/
theorem uploadMerge_keeps_reschedule_witness :
    ({ name := "Ann", phone := "91", time := 1500 } : Appt) ∈
      mergeAppointments [{ name := "Ann", phone := "91", time := 1500 }]
        [{ name := "Ann", phone := "91", time := 1400 }] ∧
    ∀ a ∈ mergeAppointments [{ name := "Ann", phone := "91", time := 1500 }]
        [{ name := "Ann", phone := "91", time := 1400 }],
      a.phone = "91" → a = { name := "Ann", phone := "91", time := 1500 } :=
  uploadMerge_keeps_reschedule
    [{ name := "Ann", phone := "91", time := 1500 }]
    [{ name := "Ann", phone := "91", time := 1400 }]
    { name := "Ann", phone := "91", time := 1500 }
    { name := "Ann", phone := "91", time := 1400 } "91"
    (by decide) (by decide) (by decide) rfl (by decide) rfl (by decide)

/-- C4 (amended): the invariant "a conversation entry exists only for
phones with an appointment" is preserved by cancellation and by the
upload merge, but the `/clear-appointments` endpoint empties the store
while leaving `userReschedulingState` untouched, so it breaks the
invariant whenever a dialogue is in progress. -/
theorem convInvariant_preservation :
    (∀ sys phone replyThrows, ConvInvariant sys →
      ConvInvariant (processCancellation sys phone replyThrows).1) ∧
    (∀ sys newB, ConvInvariant sys → ConvInvariant (uploadMerge sys newB)) ∧
    (∀ sys, (clearAppointments sys).appointmentData = [] ∧
      (clearAppointments sys).userReschedulingState = sys.userReschedulingState) := by
  refine ⟨?_, ?_, fun sys => ⟨rfl, rfl⟩⟩
  · intro sys phone rt hinv
    unfold processCancellation
    cases hl : lookupConv sys.userReschedulingState phone with
    | none =>
      intro e he
      exact hinv e (mem_eraseConv he).1
    | some st =>
      by_cases hf : (sys.appointmentData.find? (fun appt => appt.phone == phone)).isSome = true
      · rw [if_pos hf]
        intro e he
        have h2 := mem_eraseConv he
        obtain ⟨a, ha, hap⟩ := hinv e h2.1
        exact ⟨a, mem_removeFirstAppt_of_ne ha (by rw [hap]; exact h2.2), hap⟩
      · rw [if_neg hf]
        cases rt with
        | true =>
          rw [if_pos rfl]
          intro e he
          exact hinv e (mem_eraseConv he).1
        | false =>
          rw [if_neg (by decide)]
          exact hinv
  · intro sys newB hinv e he
    obtain ⟨a, ha, hap⟩ := hinv e he
    obtain ⟨b, hb, hbp⟩ := merge_phone_surj sys.appointmentData newB a ha
    exact ⟨b, hb, by rw [hbp, hap]⟩

/-- Counterexample to C4 as stated: a reachable state satisfying the
invariant on which clearing the store leaves a conversation entry for a
phone with no appointment. -/
theorem clearAppointments_breaks_invariant :
    ConvInvariant sysC4 ∧ ¬ ConvInvariant (clearAppointments sysC4) :=
  ⟨by decide, by decide⟩

/-- Witness for C4 (amended): preservation applied to the concrete
mid-dialogue system. -/
theorem convInvariant_preservation_witness :
    ConvInvariant (processCancellation sysC4 "4" false).1 :=
  convInvariant_preservation.1 sysC4 "4" false (by decide)

/-- C9: an inbound event from a phone with no appointment, or carrying a
media payload, is ignored silently: no reply is emitted and neither the
store nor any conversation entry changes. -/
theorem messageStep_ignores_unknown_or_media :
    ∀ today sys phone body hasMedia replyThrows,
      (sys.appointmentData.find? (fun a => a.phone == phone) = none ∨ hasMedia = true) →
      messageStep today sys phone body hasMedia replyThrows = (sys, []) := by
  intro today sys phone body hasMedia rt h
  unfold messageStep
  rcases h with h | h
  · rw [h]
  · subst h
    cases hf : sys.appointmentData.find? (fun a => a.phone == phone) with
    | none => rfl
    | some a => rfl

/-- Witness for C9: a message from the unknown phone 999 leaves the
system unchanged with no reply. -/
theorem messageStep_ignores_witness :
    messageStep 0 sysC9 "999" "reschedule" false false = (sysC9, []) :=
  messageStep_ignores_unknown_or_media 0 sysC9 "999" "reschedule" false false
    (Or.inl (by decide))

/-- C3 (amended): an exception at the reply of `handleDateSelection`,
`handleTimeSelection` or `processCancellation` clears the phone's
conversation entry and sends a generic apology; but in
`handleRescheduleRequest` and `handleCancellationRequest` the `catch`
sends the apology *without* clearing, leaving the entry in the stage the
body had already stored. -/
theorem stageFault_behavior :
    (∀ sys phone msg,
      (handleDateSelection sys phone msg true).1.userReschedulingState =
        eraseConv sys.userReschedulingState phone ∧
      (handleDateSelection sys phone msg true).2 = [.genericApology]) ∧
    (∀ sys phone msg,
      (handleTimeSelection sys phone msg true).1.userReschedulingState =
        eraseConv sys.userReschedulingState phone ∧
      (handleTimeSelection sys phone msg true).2 = [.genericApology]) ∧
    (∀ sys phone,
      (processCancellation sys phone true).1.userReschedulingState =
        eraseConv sys.userReschedulingState phone ∧
      (processCancellation sys phone true).2 = [.genericApology]) ∧
    (∀ today sys phone a,
      sys.appointmentData.find? (fun x => x.phone == phone) = some a →
      getAvailableDates today 7 ≠ [] →
      lookupConv (handleRescheduleRequest today sys phone true).1.userReschedulingState
          phone =
        some { currentAppointment := a, availableDates := getAvailableDates today 7,
               stage := .selectingDate } ∧
      (handleRescheduleRequest today sys phone true).2 = [.genericApology]) ∧
    (∀ sys phone a,
      sys.appointmentData.find? (fun x => x.phone == phone) = some a →
      lookupConv (handleCancellationRequest sys phone true).1.userReschedulingState phone =
        some { currentAppointment := a, stage := .confirmingCancellation } ∧
      (handleCancellationRequest sys phone true).2 = [.genericApology]) := by
  refine ⟨?_, ?_, ?_, ?_, ?_⟩
  · intro sys phone msg
    unfold handleDateSelection
    cases hl : lookupConv sys.userReschedulingState phone with
    | none => exact ⟨rfl, rfl⟩
    | some st =>
      cases hp : parseIntJs msg with
      | none => exact ⟨rfl, rfl⟩
      | some v =>
        dsimp only
        split
        · exact ⟨rfl, rfl⟩
        · exact ⟨rfl, rfl⟩
  · intro sys phone msg
    unfold handleTimeSelection
    cases hl : lookupConv sys.userReschedulingState phone with
    | none => exact ⟨rfl, rfl⟩
    | some st =>
      cases hp : parseTimeInput msg with
      | none => exact ⟨rfl, rfl⟩
      | some p =>
        dsimp only
        cases he : selectExact p st.availableTimeSlots with
        | some t => exact ⟨rfl, rfl⟩
        | none =>
          dsimp only
          cases hfz : fuzzySelect p st.availableTimeSlots with
          | none => exact ⟨rfl, rfl⟩
          | some t => exact ⟨rfl, rfl⟩
  · intro sys phone
    unfold processCancellation
    cases hl : lookupConv sys.userReschedulingState phone with
    | none => exact ⟨rfl, rfl⟩
    | some st =>
      by_cases hf :
        (sys.appointmentData.find? (fun appt => appt.phone == phone)).isSome = true
      · rw [if_pos hf]
        exact ⟨rfl, rfl⟩
      · rw [if_neg hf]
        exact ⟨rfl, rfl⟩
  · intro today sys phone a hf hne
    unfold handleRescheduleRequest
    rw [hf]
    have hni : (getAvailableDates today 7).isEmpty = false := by
      simpa [List.isEmpty_iff] using hne
    simp only [hni, Bool.false_eq_true, if_false]
    exact ⟨lookupConv_setConv_self _ _ _, rfl⟩
  · intro sys phone a hf
    unfold handleCancellationRequest
    rw [hf]
    exact ⟨lookupConv_setConv_self _ _ _, rfl⟩

/-- Counterexample to C3 as stated: a reply fault during the
reschedule-initiation path leaves the phone's conversation entry set (in
stage `selecting_date`) instead of clearing it. -/
theorem rescheduleFault_leaves_state :
    lookupConv (handleRescheduleRequest 0 sysC3 "2" true).1.userReschedulingState "2" ≠
      none ∧
    (handleRescheduleRequest 0 sysC3 "2" true).2 = [.genericApology] :=
  ⟨by decide, by decide⟩

/-- Witness for C3 (amended): the cancellation-initiation conjunct at the
concrete system. -/
theorem stageFault_behavior_witness :
    lookupConv (handleCancellationRequest sysC3 "2" true).1.userReschedulingState "2" =
      some { currentAppointment := apptC3, stage := .confirmingCancellation } ∧
    (handleCancellationRequest sysC3 "2" true).2 = [.genericApology] :=
  stageFault_behavior.2.2.2.2 sysC3 "2" apptC3 (by decide)

theorem findSome?_pair {α β : Type} (f : α → Option β) (a b : α) :
    [a, b].findSome? f = (f a).orElse (fun _ => f b) := by
  cases h : f a with
  | some v => simp [List.findSome?, h, Option.orElse]
  | none =>
    simp only [List.findSome?, h, Option.orElse]
    cases f b <;> rfl

/-- C1 (amended): for an ambiguous bare-hour input (no meridiem, hour
1-11 or exactly 12) the exact-match step of `handleTimeSelection`
iterates the candidate hours in enumeration order (AM value before the
+12 PM value; 12 before 0) and scans the slot list per candidate, so the
first slot matching the *first candidate hour* wins — with offered slots
[18:00, 06:00] and input "6" the 06:00 slot is selected, not the slot
that appears first in the offered list. -/
theorem exactMatch_candidate_order :
    ∀ (p : ParsedTime) (slots : List Nat),
      p.period = none → p.is24 = false →
      ((1 ≤ p.hour ∧ p.hour ≤ 11) →
        selectExact p slots =
          ((slots.find? (fun t => slotHour t == p.hour && slotMinute t == p.minute)).orElse
            (fun _ =>
              slots.find? (fun t =>
                slotHour t == p.hour + 12 && slotMinute t == p.minute)))) ∧
      (p.hour = 12 →
        selectExact p slots =
          ((slots.find? (fun t => slotHour t == 12 && slotMinute t == p.minute)).orElse
            (fun _ =>
              slots.find? (fun t => slotHour t == 0 && slotMinute t == p.minute)))) := by
  intro p slots hper h24
  unfold selectExact
  rw [h24, hper]
  simp only [Bool.false_eq_true, if_false]
  constructor
  · rintro ⟨h1, h2⟩
    have hc : (1 ≤ p.hour && p.hour ≤ 11) = true := by
      simp only [Bool.and_eq_true, decide_eq_true_eq]
      exact ⟨h1, h2⟩
    rw [if_pos hc]
    exact findSome?_pair _ _ _
  · intro h12
    have hc1 : ¬((1 ≤ p.hour && p.hour ≤ 11) = true) := by
      simp only [Bool.and_eq_true, decide_eq_true_eq]
      omega
    have hc2 : (p.hour == 12) = true := by
      simp [h12]
    rw [if_neg hc1, if_pos hc2]
    have h := findSome?_pair
      (fun ch => slots.find? (fun t => slotHour t == ch && slotMinute t == p.minute)) 12 0
    exact h

/-- Counterexample to C1 as stated: with offered slots `[1080, 360]`
(18:00 then 06:00 of day 0) and input "6", the handler reschedules to
360 (06:00) — the AM candidate enumerated first — not to the slot 1080
that appears first in the offered list. -/
theorem exactMatch_slot_order_counterexample :
    (handleTimeSelection sysC1 "1" "6" false).1.appointmentData =
      [{ name := "Ann", phone := "1", time := 360 }] ∧
    selectExact { hour := 6, minute := 0, period := none, is24 := false } [1080, 360] =
      some 360 :=
  ⟨by decide, by decide⟩

/-- Witness for C1 (amended) at the parse of "6" against the slots
`[1080, 360]`. -/
theorem exactMatch_candidate_order_witness :
    selectExact { hour := 6, minute := 0, period := none, is24 := false } [1080, 360] =
      (([1080, 360].find? (fun t => slotHour t == 6 && slotMinute t == 0)).orElse
        (fun _ => [1080, 360].find? (fun t => slotHour t == 6 + 12 && slotMinute t == 0))) :=
  (exactMatch_candidate_order { hour := 6, minute := 0, period := none, is24 := false }
    [1080, 360] rfl rfl).1 ⟨by decide, by decide⟩

theorem parseIntNoSign_leadingDigits {cs : List Char} {k : Nat}
    (hne : cs.takeWhile Char.isDigit ≠ [])
    (hval : decValue (cs.takeWhile Char.isDigit) = k)
    (hk : 1 ≤ k) :
    parseIntNoSign cs = some k := by
  cases cs with
  | nil => simp at hne
  | cons c rest =>
    have hcd : c.isDigit = true := by
      by_contra h
      rw [List.takeWhile_cons, if_neg h] at hne
      exact hne rfl
    unfold parseIntNoSign
    split
    · rename_i x rest2 heq
      injection heq with h1 h2
      subst h1
      subst h2
      by_cases hx : (x == 'x' || x == 'X') = true
      · rw [if_pos hx]
        exfalso
        have hxd : x.isDigit = false := by
          rcases Bool.or_eq_true_iff.mp hx with h | h
          · rw [beq_iff_eq] at h
            subst h
            decide
          · rw [beq_iff_eq] at h
            subst h
            decide
        rw [List.takeWhile_cons, if_pos hcd, List.takeWhile_cons,
          if_neg (by simp [hxd])] at hval
        simp [decValue, digitVal] at hval
        omega
      · rw [if_neg hx]
        have hie : ((('0' : Char) :: x :: rest2).takeWhile Char.isDigit).isEmpty = false := by
          cases h : (('0' : Char) :: x :: rest2).takeWhile Char.isDigit with
          | nil => exact absurd h hne
          | cons a l => rfl
        simp only [hie, Bool.false_eq_true, if_false, hval]
    · rename_i hnotpat
      have hie : ((c :: rest).takeWhile Char.isDigit).isEmpty = false := by
        cases h : (c :: rest).takeWhile Char.isDigit with
        | nil => exact absurd h hne
        | cons a l => rfl
      simp only [hie, Bool.false_eq_true, if_false, hval]

theorem parseIntJs_leadingDigits {s : String} {k : Nat}
    (hne : (jsTrimChars s.data).takeWhile Char.isDigit ≠ [])
    (hval : decValue ((jsTrimChars s.data).takeWhile Char.isDigit) = k)
    (hk : 1 ≤ k) :
    parseIntJs s = some (k : Int) := by
  unfold parseIntJs
  cases hcs : jsTrimChars s.data with
  | nil =>
    rw [hcs] at hne
    simp at hne
  | cons c rest =>
    rw [hcs] at hne hval
    have hcd : c.isDigit = true := by
      by_contra h
      rw [List.takeWhile_cons, if_neg h] at hne
      exact hne rfl
    split
    · rename_i rest2 heq
      injection heq with h1 h2
      subst h1
      simp at hcd
    · rename_i rest2 heq
      injection heq with h1 h2
      subst h1
      simp at hcd
    · rename_i cs2 hne1 hne2
      rw [parseIntNoSign_leadingDigits hne hval hk]
      rfl

/-- C10: in stage `selecting_date` the selection is parsed with
JavaScript `parseInt` leading-prefix semantics: every trimmed input
beginning with a decimal-digit run of value `k` with `1 ≤ k ≤` number of
offered dates selects the `k`-th offered date even with trailing
non-numeric characters (e.g. "2abc" selects the second date), and the
invalid-selection re-prompt is sent exactly when the leading-prefix parse
yields NaN or an out-of-range number. -/
theorem dateSelection_leadingDigits :
    ∀ (sys : SysState) (phone input : String) (st : ConvState),
      lookupConv sys.userReschedulingState phone = some st →
      (∀ k : Nat,
        (jsTrimChars input.data).takeWhile Char.isDigit ≠ [] →
        decValue ((jsTrimChars input.data).takeWhile Char.isDigit) = k →
        1 ≤ k → k ≤ st.availableDates.length →
        parseIntJs input = some (k : Int) ∧
        ∃ st2,
          lookupConv (handleDateSelection sys phone input false).1.userReschedulingState
              phone = some st2 ∧
          st.availableDates[k - 1]? = some st2.selectedDate ∧
          (handleDateSelection sys phone input false).2 ≠ [.invalidDateSelection]) ∧
      ((handleDateSelection sys phone input false).2 = [.invalidDateSelection] ↔
        parseIntJs input = none ∨
          ∃ v, parseIntJs input = some v ∧
            (v < 1 ∨ (st.availableDates.length : Int) < v)) := by
  intro sys phone input st hl
  constructor
  · intro k h1 h2 h3 h4
    have hp := parseIntJs_leadingDigits h1 h2 h3
    refine ⟨hp, ?_⟩
    unfold handleDateSelection
    rw [hl, hp]
    dsimp only
    have hcond : ¬((k : Int) - 1 < 0 ∨ (st.availableDates.length : Int) ≤ (k : Int) - 1) := by
      rintro (h | h) <;> omega
    rw [if_neg hcond]
    have hidx : ((k : Int) - 1).toNat = k - 1 := by omega
    have hklen : k - 1 < st.availableDates.length := by omega
    have hget : st.availableDates.getD ((k : Int) - 1).toNat 0 =
        st.availableDates[k - 1] := by
      rw [hidx, List.getD_eq_getElem?_getD, List.getElem?_eq_getElem hklen]
      rfl
    have hgetq : st.availableDates[k - 1]? = some (st.availableDates[k - 1]) :=
      List.getElem?_eq_getElem hklen
    simp only [Bool.false_eq_true, if_false]
    split
    · refine ⟨_, lookupConv_setConv_self _ _ _, ?_, by simp⟩
      simp only [hget, hgetq]
    · refine ⟨_, lookupConv_setConv_self _ _ _, ?_, by simp⟩
      simp only [hget, hgetq]
  · cases hp : parseIntJs input with
    | none =>
      unfold handleDateSelection
      rw [hl, hp]
      exact ⟨fun _ => Or.inl rfl, fun _ => rfl⟩
    | some v =>
      unfold handleDateSelection
      rw [hl, hp]
      dsimp only
      by_cases hcond : (v - 1 < 0 ∨ (st.availableDates.length : Int) ≤ v - 1)
      · rw [if_pos hcond]
        constructor
        · intro _
          exact Or.inr ⟨v, rfl, by rcases hcond with h | h <;> omega⟩
        · intro _
          rfl
      · rw [if_neg hcond]
        constructor
        · intro habs
          exfalso
          revert habs
          simp only [Bool.false_eq_true, if_false]
          split <;> intro habs <;> simp at habs
        · rintro (h | ⟨v2, hv2, hrange⟩)
          · exact absurd h (by simp)
          · exfalso
            have : v2 = v := by
              injection hv2 with h5
              exact h5.symm
            subst this
            rcases hrange with h | h <;> [exact hcond (Or.inl (by omega));
              exact hcond (Or.inr (by omega))]

/-- Witness for C10: input "2abc" with two offered dates selects the
second one. -/
theorem dateSelection_leadingDigits_witness :
    parseIntJs "2abc" = some ((2 : Nat) : Int) ∧
    ∃ st2,
      lookupConv (handleDateSelection sysC10 "3" "2abc" false).1.userReschedulingState
          "3" = some st2 ∧
      stC10.availableDates[2 - 1]? = some st2.selectedDate ∧
      (handleDateSelection sysC10 "3" "2abc" false).2 ≠ [.invalidDateSelection] :=
  (dateSelection_leadingDigits sysC10 "3" "2abc" stC10 (by decide)).1 2
    (by decide) (by decide) (by decide) (by decide)

/-- Witness for C5: the 00:30 slot of day 1 is available against a 23:30
appointment of day 0. -/
theorem isTimeSlotAvailable_spec_witness :
    isTimeSlotAvailable 1470 "p1" [{ name := "b", phone := "p2", time := 1410 }] = true :=
  (isTimeSlotAvailable_spec.1 1470 "p1" [{ name := "b", phone := "p2", time := 1410 }]).mpr
    (by decide)

/-- Witness for C7: day 4 (a Monday) is offered for a horizon of 7 from
the Saturday day 2. -/
theorem getAvailableDates_spec_witness : 4 ∈ getAvailableDates 2 7 :=
  (getAvailableDates_spec.2.1 2 7 4).mpr (by decide)

/-- Witness for C8: the 11:30 tick with an appointment 3 days ahead
fires the countdown reminder. -/
theorem countdownReminder_spec_witness :
    countdownReminderFires 690 (3 * 1440 + 600) = true :=
  (countdownReminder_spec.1 690 (3 * 1440 + 600)).mpr (by decide)
